import Mathlib

/-!
Verification of the interpreter-discovery and workspace-resolution core
(crates `uv-interpreter` and `uv-requirements`).

The Rust code is shallowly embedded: pure helpers become Lean functions,
external collaborators (filesystem reads, subprocess queries, the `py`
launcher, glob expansion, TOML parsing) become explicit function fields of
an environment record, and iterator chains become list computations.
Machine integers (`u8`) are modelled as `Nat` with the bound `≤ 255`
enforced at parse time, exactly as `str::parse::<u8>` enforces it.
-/

namespace Uv

/-! ## Character/string helpers (models of the Rust `str` operations used) -/

/-- The decimal digit character for `n % 10`, as produced by Rust's integer
`Display`. -/
def digitChar (n : Nat) : Char :=
  Char.ofNat (48 + n % 10)

/-- Numeric value of an ASCII digit character, `none` for anything else. -/
def digitVal (c : Char) : Option Nat :=
  if 48 ≤ c.toNat ∧ c.toNat ≤ 57 then some (c.toNat - 48) else none

/-- Model of `str::parse::<u8>` on a list of characters: an optional leading
`+`, then one or more ASCII digits, with every intermediate value checked
against the `u8` bound (checked multiply/add in the Rust core library). -/
def parseU8Digits : Nat → List Char → Option Nat
  | acc, [] => some acc
  | acc, c :: rest =>
    match digitVal c with
    | none => none
    | some d =>
      let acc' := acc * 10 + d
      if acc' ≤ 255 then parseU8Digits acc' rest else none

/-- Model of `str::parse::<u8>`: empty input and non-digit input fail. -/
def parseU8 (s : List Char) : Option Nat :=
  match s with
  | [] => none
  | c :: rest =>
    if c = '+' then
      match rest with
      | [] => none
      | c' :: rest' =>
        match digitVal c' with
        | none => none
        | some d => if d ≤ 255 then parseU8Digits d rest' else none
    else
      match digitVal c with
      | none => none
      | some d => if d ≤ 255 then parseU8Digits d rest else none

/-- `collect::<Result<Vec<_>, _>>` over `parseU8`: parse every component,
failing at the first failure. -/
def parseAll : List (List Char) → Option (List Nat)
  | [] => some []
  | s :: rest =>
    match parseU8 s with
    | none => none
    | some n =>
      match parseAll rest with
      | none => none
      | some ns => some (n :: ns)

/-- Model of `str::split_once(sep)`: split at the first occurrence of `sep`. -/
def splitOnceChar (sep : Char) : List Char → Option (List Char × List Char)
  | [] => none
  | c :: rest =>
    if c = sep then some ([], rest)
    else (splitOnceChar sep rest).map (fun p => (c :: p.1, p.2))

/-- Model of `str::splitn(n, sep)`: at most `n` pieces, the last piece keeps
any remaining separators. For `n ≥ 1` at least one piece is produced. -/
def splitnChar : Nat → Char → List Char → List (List Char)
  | 0, _, _ => []
  | 1, _, s => [s]
  | n + 2, sep, s =>
    match splitOnceChar sep s with
    | none => [s]
    | some (a, b) => a :: splitnChar (n + 1) sep b

/-- Decimal rendering of a `u8` value (Rust `Display` for `u8`, faithful for
all values `≤ 255`; it never produces a leading zero except for `0`). -/
def u8Repr (n : Nat) : List Char :=
  if n < 10 then [digitChar n]
  else if n < 100 then [digitChar (n / 10), digitChar n]
  else [digitChar (n / 100), digitChar (n / 10), digitChar n]

/-- Model of `str::strip_prefix`: `removePre p s = some rest` iff `s = p ++ rest`. -/
def removePre : List Char → List Char → Option (List Char)
  | [], s => some s
  | _ :: _, [] => none
  | p :: ps, c :: cs => if p = c then removePre ps cs else none

/-- Model of `char::to_ascii_lowercase`, applied characterwise by
`str::to_ascii_lowercase`. -/
def asciiLower (c : Char) : Char :=
  if 65 ≤ c.toNat ∧ c.toNat ≤ 90 then Char.ofNat (c.toNat + 32) else c

/-! ## `VersionRequest` (uv-interpreter/src/discovery.rs) -/

/-- A Python interpreter version request. -/
inductive VersionRequest where
  | default
  | major (major : Nat)
  | majorMinor (major minor : Nat)
  | majorMinorPatch (major minor patch : Nat)
deriving DecidableEq, Repr

/-- `PythonVersion` as used by `VersionRequest::matches_version`: the patch
component is optional (`python_version.patch()` returns `Option<u8>`). -/
structure PythonVersion where
  major : Nat
  minor : Nat
  patch : Option Nat
deriving DecidableEq, Repr

/-- The queried interpreter metadata the discovery core relies on. -/
structure Interpreter where
  implementationName : String
  pythonMajor : Nat
  pythonMinor : Nat
  pythonPatch : Nat
deriving DecidableEq, Repr

/-- `VersionRequest::from_str` on a character list: split into at most three
dot-separated components, parse each as `u8`, and build the variant matching
the component count. An empty input fails (the single empty component is not
a valid `u8`). -/
def VersionRequest.fromChars (s : List Char) : Option VersionRequest :=
  match parseAll (splitnChar 3 '.' s) with
  | some [ma] => some (.major ma)
  | some [ma, mi] => some (.majorMinor ma mi)
  | some [ma, mi, pa] => some (.majorMinorPatch ma mi pa)
  | _ => none

/-- `VersionRequest::from_str` on a `String`. -/
def VersionRequest.fromStr (s : String) : Option VersionRequest :=
  VersionRequest.fromChars s.data

/-- `Display for VersionRequest`, producing a character list. -/
def VersionRequest.displayChars : VersionRequest → List Char
  | .default => "default".data
  | .major ma => u8Repr ma
  | .majorMinor ma mi => u8Repr ma ++ '.' :: u8Repr mi
  | .majorMinorPatch ma mi pa =>
      u8Repr ma ++ '.' :: u8Repr mi ++ '.' :: u8Repr pa

/-- `VersionRequest::matches_interpreter`. -/
def VersionRequest.matchesInterpreter : VersionRequest → Interpreter → Bool
  | .default, _ => true
  | .major ma, i => i.pythonMajor = ma
  | .majorMinor ma mi, i =>
      (i.pythonMajor, i.pythonMinor) = (ma, mi)
  | .majorMinorPatch ma mi pa, i =>
      (i.pythonMajor, i.pythonMinor, i.pythonPatch) = (ma, mi, pa)

/-- `VersionRequest::matches_version`. -/
def VersionRequest.matchesVersion : VersionRequest → PythonVersion → Bool
  | .default, _ => true
  | .major ma, v => v.major = ma
  | .majorMinor ma mi, v => (v.major, v.minor) = (ma, mi)
  | .majorMinorPatch ma mi pa, v =>
      (v.major, v.minor, v.patch) = (ma, mi, some pa)

/-- `VersionRequest::matches_major_minor`. -/
def VersionRequest.matchesMajorMinor : VersionRequest → Nat → Nat → Bool
  | .default, _, _ => true
  | .major selfMajor, ma, _ => selfMajor = ma
  | .majorMinor selfMajor selfMinor, ma, mi =>
      (selfMajor, selfMinor) = (ma, mi)
  | .majorMinorPatch selfMajor selfMinor _, ma, mi =>
      (selfMajor, selfMinor) = (ma, mi)

/-- `VersionRequest::has_patch`. -/
def VersionRequest.hasPatch : VersionRequest → Bool
  | .default => false
  | .major _ => false
  | .majorMinor _ _ => false
  | .majorMinorPatch _ _ _ => true

/-- `VersionRequest::without_patch`. -/
def VersionRequest.withoutPatch : VersionRequest → VersionRequest
  | .default => .default
  | .major ma => .major ma
  | .majorMinor ma mi => .majorMinor ma mi
  | .majorMinorPatch ma mi _ => .majorMinor ma mi

/-! ## Implementation names (uv-interpreter/src/implementation.rs) -/

/-- Modelled from the spec: `implementation.rs` is not part of the provided
sources. `ImplementationName` is "a small enumerated set of known Python
implementations (at minimum CPython and PyPy), each with a canonical
lowercase string form used for matching". -/
inductive ImplementationName where
  | cpython
  | pypy
deriving DecidableEq, Repr

/-- Modelled from the spec: the canonical lowercase string form. -/
def ImplementationName.asStr : ImplementationName → String
  | .cpython => "cpython"
  | .pypy => "pypy"

/-- Canonical form as a character list. -/
def ImplementationName.asStrChars (i : ImplementationName) : List Char :=
  i.asStr.data

/-- Modelled from the spec: `ImplementationName::iter`, the enumeration order
of the known implementations. -/
def ImplementationName.iter : List ImplementationName :=
  [.cpython, .pypy]

/-- Modelled from the spec: `ImplementationName::from_str` succeeds exactly on
a canonical lowercase name. -/
def ImplementationName.fromChars (s : List Char) : Option ImplementationName :=
  ImplementationName.iter.find? (fun i => i.asStrChars = s)

/-! ## Requests, sources and errors (uv-interpreter/src/discovery.rs) -/

/-- A request to find a Python interpreter. Paths are modelled as strings. -/
inductive InterpreterRequest where
  | version (v : VersionRequest)
  | directory (path : String)
  | file (path : String)
  | executableName (name : String)
  | implementation (i : ImplementationName)
  | implementationVersion (i : ImplementationName) (v : VersionRequest)
deriving DecidableEq, Repr

/-- The source of a discovered Python interpreter. -/
inductive InterpreterSource where
  | providedPath
  | activeEnvironment
  | discoveredEnvironment
  | searchPath
  | pyLauncher
  | managedToolchain
deriving DecidableEq, Repr

/-- The sources to consider when finding a Python interpreter. The `HashSet`
is modelled as a list (only membership is used). -/
inductive SourceSelector where
  | all
  | some (sources : List InterpreterSource)
deriving DecidableEq, Repr

/-- `SourceSelector::contains`. -/
def SourceSelector.contains : SourceSelector → InterpreterSource → Bool
  | .all, _ => true
  | .some sources, source => sources.contains source

/-- `SourceSelector::from_sources` (the non-emptiness assertion holds at every
call site in the source and is not modelled). -/
def SourceSelector.fromSources (sources : List InterpreterSource) : SourceSelector :=
  .some sources

/-- The policy for discovery of "system" Python interpreters. -/
inductive SystemPython where
  | disallowed
  | allowed
  | required
deriving DecidableEq, Repr

/-- Payload of `io::Error` (only identity matters to the discovery logic). -/
inductive IoError where
  | notFound
  | otherIo
deriving DecidableEq, Repr

/-- Modelled from the spec: `interpreter::Error` (`interpreter.rs` is not in
the provided sources). The spec distinguishes the sub-variant `QueryScript`
(the introspection script itself errored on an interpreter), which is
recoverable in the places noted in the spec, from every other query failure. -/
inductive QueryError where
  | queryScript
  | otherQuery
deriving DecidableEq, Repr

/-- Payload of `managed::Error`. -/
inductive ManagedToolchainError where
  | mk
deriving DecidableEq, Repr

/-- Payload of `virtualenv::Error`. -/
inductive VirtualEnvError where
  | mk
deriving DecidableEq, Repr

/-- Payload of `py_launcher::Error`. -/
inductive PyLauncherError where
  | mk
deriving DecidableEq, Repr

/-- `discovery::Error`, the short-circuiting error type of discovery. -/
inductive DiscoveryError where
  | io (e : IoError)
  | query (e : QueryError)
  | managedToolchain (e : ManagedToolchainError)
  | virtualEnv (e : VirtualEnvError)
  | pyLauncher (e : PyLauncherError)
  | sourceNotSelected (request : InterpreterRequest) (source : InterpreterSource)
deriving DecidableEq, Repr

/-- The structured failure of interpreter discovery (`InterpreterNotFound`). -/
inductive InterpreterNotFound where
  | noPythonInstallation (sources : SourceSelector) (version : Option VersionRequest)
  | noMatchingVersion (sources : SourceSelector) (version : VersionRequest)
  | noMatchingImplementation (sources : SourceSelector) (i : ImplementationName)
  | noMatchingImplementationVersion (sources : SourceSelector)
      (i : ImplementationName) (version : VersionRequest)
  | fileNotFound (path : String)
  | directoryNotFound (path : String)
  | executableNotFoundInDirectory (directory executable : String)
  | executableNotFoundInSearchPath (name : String)
  | fileNotExecutable (path : String)
deriving DecidableEq, Repr

/-- The result of successful interpreter discovery. -/
structure DiscoveredInterpreter where
  source : InterpreterSource
  interpreter : Interpreter
deriving DecidableEq, Repr

/-- A managed toolchain as seen by discovery: a declared version and an
executable path. -/
structure Toolchain where
  pythonVersion : PythonVersion
  executable : String
deriving DecidableEq, Repr

/-- One line of `py --list-paths` output. -/
structure PyLauncherEntry where
  major : Nat
  minor : Nat
  executablePath : String
deriving DecidableEq, Repr

/-- The external collaborators of discovery, as one record of functions:
filesystem probes, the active/discovered virtual environments, installed
managed toolchains, the search-path scan (`python_executables_from_search_path`,
whose body is pure I/O against `PATH`), the `py` launcher, the subprocess
metadata query (`Interpreter::query`; the cache only memoizes it and is
dropped), and the environment variables read by `SourceSelector::from_env`. -/
structure DiscoveryEnv where
  virtualenvFromEnv : Option String
  virtualenvFromWorkingDir : Except VirtualEnvError (Option String)
  virtualenvPythonExecutable : String → String
  toolchainsForCurrentPlatform : Except ManagedToolchainError (List Toolchain)
  searchPathExecutables : Option VersionRequest → List String
  pyListPaths : Except PyLauncherError (List PyLauncherEntry)
  isWindows : Bool
  tryExists : String → Except IoError Bool
  whichName : String → Option String
  query : String → Except QueryError Interpreter
  uvForceManagedPython : Bool
  uvTestPythonPath : Bool

/-- Decidable equality for `Except`, so that the embedding can be evaluated
on concrete inputs. -/
instance exceptDecEq {ε α : Type} [DecidableEq ε] [DecidableEq α] :
    DecidableEq (Except ε α)
  | .error e, .error f =>
    if h : e = f then .isTrue (by rw [h])
    else .isFalse (by intro hc; cases hc; exact h rfl)
  | .error _, .ok _ => .isFalse (by intro hc; cases hc)
  | .ok _, .error _ => .isFalse (by intro hc; cases hc)
  | .ok a, .ok b =>
    if h : a = b then .isTrue (by rw [h])
    else .isFalse (by intro hc; cases hc; exact h rfl)

/-- An element of the executable stream. -/
abbrev ExecItem := Except DiscoveryError (InterpreterSource × String)

/-- An element of the interpreter stream. -/
abbrev InterpItem := Except DiscoveryError (InterpreterSource × Interpreter)

/-- `python_executables`: the lazy ordered stream of `(source, executable)`
pairs, as a list. Each clause is one link of the Rust iterator chain; a
failing producer contributes a single error element (`flatten_ok`), and an
unselected source contributes nothing. -/
def pythonExecutables (env : DiscoveryEnv) (version : Option VersionRequest)
    (sources : SourceSelector) : List ExecItem :=
  -- (1) The active environment
  (if sources.contains .activeEnvironment then
    env.virtualenvFromEnv.toList.map
      (fun path => .ok (.activeEnvironment, env.virtualenvPythonExecutable path))
  else [])
  -- (2) A discovered environment
  ++ (if sources.contains .discoveredEnvironment then
    match env.virtualenvFromWorkingDir with
    | .error e => [.error (.virtualEnv e)]
    | .ok none => []
    | .ok (some path) =>
        [.ok (.discoveredEnvironment, env.virtualenvPythonExecutable path)]
  else [])
  -- (3) Managed toolchains, pre-filtered on the declared version
  ++ (if sources.contains .managedToolchain then
    match env.toolchainsForCurrentPlatform with
    | .error e => [.error (.managedToolchain e)]
    | .ok toolchains =>
        (toolchains.filter (fun toolchain =>
          version.isNone ||
            version.any (fun v => v.matchesVersion toolchain.pythonVersion))).map
          (fun toolchain => .ok (.managedToolchain, toolchain.executable))
  else [])
  -- (4) The search path
  ++ (if sources.contains .searchPath then
    (env.searchPathExecutables version).map (fun path => .ok (.searchPath, path))
  else [])
  -- (5) The `py` launcher (windows only), pre-filtered on major/minor
  ++ (if sources.contains .pyLauncher && env.isWindows then
    match env.pyListPaths with
    | .error e => [.error (.pyLauncher e)]
    | .ok entries =>
        (entries.filter (fun entry =>
          version.isNone ||
            version.any (fun v =>
              v.hasPatch || v.matchesMajorMinor entry.major entry.minor))).map
          (fun entry => .ok (.pyLauncher, entry.executablePath))
  else [])

/-- The contribution of a single source to `pythonExecutables`, before
selection. Used to state the source-grouping property. -/
def sourceContribution (env : DiscoveryEnv) (version : Option VersionRequest) :
    InterpreterSource → List ExecItem
  | .providedPath => []
  | .activeEnvironment =>
      env.virtualenvFromEnv.toList.map
        (fun path => .ok (.activeEnvironment, env.virtualenvPythonExecutable path))
  | .discoveredEnvironment =>
      match env.virtualenvFromWorkingDir with
      | .error e => [.error (.virtualEnv e)]
      | .ok none => []
      | .ok (some path) =>
          [.ok (.discoveredEnvironment, env.virtualenvPythonExecutable path)]
  | .managedToolchain =>
      match env.toolchainsForCurrentPlatform with
      | .error e => [.error (.managedToolchain e)]
      | .ok toolchains =>
          (toolchains.filter (fun toolchain =>
            version.isNone ||
              version.any (fun v => v.matchesVersion toolchain.pythonVersion))).map
            (fun toolchain => .ok (.managedToolchain, toolchain.executable))
  | .searchPath =>
      (env.searchPathExecutables version).map (fun path => .ok (.searchPath, path))
  | .pyLauncher =>
      if env.isWindows then
        match env.pyListPaths with
        | .error e => [.error (.pyLauncher e)]
        | .ok entries =>
            (entries.filter (fun entry =>
              version.isNone ||
                version.any (fun v =>
                  v.hasPatch || v.matchesMajorMinor entry.major entry.minor))).map
              (fun entry => .ok (.pyLauncher, entry.executablePath))
      else []

/-- The fixed visiting order of the enumerated sources. -/
def sourceOrder : List InterpreterSource :=
  [.activeEnvironment, .discoveredEnvironment, .managedToolchain, .searchPath,
    .pyLauncher]

/-- `python_interpreters`: query every executable of the stream. -/
def pythonInterpreters (env : DiscoveryEnv) (version : Option VersionRequest)
    (sources : SourceSelector) : List InterpItem :=
  (pythonExecutables env version sources).map (fun result =>
    match result with
    | .ok (source, path) =>
      match env.query path with
      | .ok interpreter => .ok (source, interpreter)
      | .error e => .error (.query e)
    | .error e => .error e)

/-- The `find` closure of the `Implementation` arm of `find_interpreter`:
stop at the first error that is not a query-script error, or at the first
interpreter of the requested implementation. -/
def implFindPred (impl : ImplementationName) : InterpItem → Bool
  | .error e => !(match e with | .query .queryScript => true | _ => false)
  | .ok (_, interpreter) => interpreter.implementationName = impl.asStr

/-- The `find` closure of the `ImplementationVersion` arm: stop at the first
error of any kind, or at the first interpreter matching both predicates. -/
def implVersionFindPred (impl : ImplementationName) (version : VersionRequest) :
    InterpItem → Bool
  | .error _ => true
  | .ok (_, interpreter) =>
      version.matchesInterpreter interpreter &&
        interpreter.implementationName = impl.asStr

/-- The `find` closure of the `Version` arm: stop at the first error of any
kind, or at the first interpreter matching the version request. -/
def versionFindPred (version : VersionRequest) : InterpItem → Bool
  | .error _ => true
  | .ok (_, interpreter) => version.matchesInterpreter interpreter

/-- `find_interpreter`: the outer `Except` is the short-circuiting error, the
inner one the structured not-found result (`InterpreterResult`). -/
def findInterpreter (env : DiscoveryEnv) (request : InterpreterRequest)
    (sources : SourceSelector) :
    Except DiscoveryError (Except InterpreterNotFound DiscoveredInterpreter) :=
  match request with
  | .file path =>
    if !sources.contains .providedPath then
      .error (.sourceNotSelected request .providedPath)
    else
      match env.tryExists path with
      | .error e => .error (.io e)
      | .ok false => .ok (.error (.fileNotFound path))
      | .ok true =>
        match env.query path with
        | .error e => .error (.query e)
        | .ok interpreter => .ok (.ok ⟨.providedPath, interpreter⟩)
  | .directory path =>
    if !sources.contains .providedPath then
      .error (.sourceNotSelected request .providedPath)
    else
      match env.tryExists path with
      | .error e => .error (.io e)
      | .ok false => .ok (.error (.fileNotFound path))
      | .ok true =>
        let executable := env.virtualenvPythonExecutable path
        match env.tryExists executable with
        | .error e => .error (.io e)
        | .ok false => .ok (.error (.executableNotFoundInDirectory path executable))
        | .ok true =>
          match env.query executable with
          | .error e => .error (.query e)
          | .ok interpreter => .ok (.ok ⟨.providedPath, interpreter⟩)
  | .executableName name =>
    if !sources.contains .searchPath then
      .error (.sourceNotSelected request .searchPath)
    else
      match env.whichName name with
      | none => .ok (.error (.executableNotFoundInSearchPath name))
      | some executable =>
        match env.query executable with
        | .error e => .error (.query e)
        | .ok interpreter => .ok (.ok ⟨.searchPath, interpreter⟩)
  | .implementation impl =>
    match (pythonInterpreters env none sources).find? (implFindPred impl) with
    | none => .ok (.error (.noMatchingImplementation sources impl))
    | some (.error e) => .error e
    | some (.ok (source, interpreter)) => .ok (.ok ⟨source, interpreter⟩)
  | .implementationVersion impl version =>
    match (pythonInterpreters env (some version) sources).find?
        (implVersionFindPred impl version) with
    | none =>
        .ok (.error (.noMatchingImplementationVersion sources impl version))
    | some (.error e) => .error e
    | some (.ok (source, interpreter)) => .ok (.ok ⟨source, interpreter⟩)
  | .version version =>
    match (pythonInterpreters env (some version) sources).find?
        (versionFindPred version) with
    | none =>
        .ok (.error (if version = .default then
          .noPythonInstallation sources (some version)
        else
          .noMatchingVersion sources version))
    | some (.error e) => .error e
    | some (.ok (source, interpreter)) => .ok (.ok ⟨source, interpreter⟩)

/-- `SourceSelector::virtualenvs`. -/
def SourceSelector.virtualenvs : SourceSelector :=
  SourceSelector.fromSources [.discoveredEnvironment, .activeEnvironment]

/-- `SourceSelector::from_env`. -/
def SourceSelector.fromEnv (env : DiscoveryEnv) (system : SystemPython) :
    SourceSelector :=
  if env.uvForceManagedPython then
    SourceSelector.fromSources [.managedToolchain]
  else if env.uvTestPythonPath then
    SourceSelector.fromSources [.activeEnvironment, .searchPath]
  else
    match system with
    | .allowed => .all
    | .required =>
        SourceSelector.fromSources
          [.providedPath, .searchPath, .pyLauncher, .managedToolchain]
    | .disallowed => SourceSelector.virtualenvs

/-- The patch-relaxation step of `find_best_interpreter` (the `match request`
between the first and second pass): `Version` requests are relaxed only when
they carry a patch, `ImplementationVersion` requests are always retried with
`without_patch()`, and every other request has no second pass. -/
def secondPassRequest : InterpreterRequest → Option InterpreterRequest
  | .version version =>
      if version.hasPatch then some (.version version.withoutPatch) else none
  | .implementationVersion impl version =>
      some (.implementationVersion impl version.withoutPatch)
  | _ => none

/-- `find_best_interpreter`, instrumented with the list of requests passed to
`find_interpreter`, in order, so that the pass structure is observable. The
third pass rewrites `NoMatchingVersion` to `NoPythonInstallation(sources,
None)`. -/
def findBestInterpreter (env : DiscoveryEnv) (request : InterpreterRequest)
    (system : SystemPython) :
    Except DiscoveryError (Except InterpreterNotFound DiscoveredInterpreter) ×
      List InterpreterRequest :=
  let sources := SourceSelector.fromEnv env system
  let thirdPass := fun (attempts : List InterpreterRequest) =>
    let result := findInterpreter env (.version .default) sources
    (result.map (fun inner =>
      inner.mapError (fun err =>
        match err with
        | .noMatchingVersion _ _ => .noPythonInstallation sources none
        | _ => err)),
     attempts ++ [.version .default])
  match findInterpreter env request sources with
  | .error e => (.error e, [request])
  | .ok (.ok found) => (.ok (.ok found), [request])
  | .ok (.error _) =>
    match secondPassRequest request with
    | none => thirdPass [request]
    | some request2 =>
      match findInterpreter env request2 sources with
      | .error e => (.error e, [request, request2])
      | .ok (.ok found) => (.ok (.ok found), [request, request2])
      | .ok (.error _) => thirdPass [request, request2]

/-! ## `InterpreterRequest::parse` (uv-interpreter/src/discovery.rs) -/

/-- The loop over `ImplementationName::iter` in `InterpreterRequest::parse`:
strip the canonical name from the lowercased input; an empty remainder gives
`Implementation`, a remainder parsing as a version gives
`ImplementationVersion`, anything else moves on to the next name. -/
def parseImplLoop (lowered : List Char) :
    List ImplementationName → Option InterpreterRequest
  | [] => none
  | impl :: rest =>
    match removePre impl.asStrChars lowered with
    | none => parseImplLoop lowered rest
    | some remainder =>
      if remainder = [] then some (.implementation impl)
      else
        match VersionRequest.fromChars remainder with
        | some version => some (.implementationVersion impl version)
        | none => parseImplLoop lowered rest

/-- `InterpreterRequest::parse` for the POSIX build (the platform main path
separator is `/`). The filesystem probe `Path::is_dir` is passed in as
`isDir`. The rules are applied in source order, first success wins, and the
parser is total. -/
def InterpreterRequest.parse (isDir : String → Bool) (value : String) :
    InterpreterRequest :=
  let chars := value.data
  (((((VersionRequest.fromChars chars).map InterpreterRequest.version).orElse
    (fun _ =>
      (removePre "python".data chars).bind (fun remainder =>
        (VersionRequest.fromChars remainder).map InterpreterRequest.version))).orElse
    (fun _ =>
      (splitOnceChar '@' chars).bind (fun p =>
        (ImplementationName.fromChars p.1).bind (fun impl =>
          (VersionRequest.fromChars p.2).map
            (InterpreterRequest.implementationVersion impl))))).orElse
    (fun _ => parseImplLoop (chars.map asciiLower) ImplementationName.iter)).getD
    (if isDir value then .directory value
     else if chars.contains '/' then .file value
     else .executableName value)

/-! ## Workspace discovery (uv-requirements/src/discovery.rs)

Filesystem paths are modelled as lists of components (`FsPath`); `join`
appends a component and `Path::ancestors` walks prefixes down to the empty
path, exactly as the Rust iterator does. -/

/-- A filesystem path: a list of components. -/
abbrev FsPath := List String

/-- `Path::join` with a single file name component. -/
def joinFile (p : FsPath) (name : String) : FsPath :=
  p ++ [name]

/-- `Path::ancestors`: the path itself, then each parent, ending with the
empty path. -/
def ancestorsOf (p : FsPath) : List FsPath :=
  (List.range (p.length + 1)).map (fun k => p.take (p.length - k))

/-- Modelled from the spec: `pyproject.rs` is not in the provided sources.
The `[project]` table carries the package name. -/
structure Project where
  name : String
deriving DecidableEq, Repr

/-- Modelled from the spec: a `[tool.uv.sources]` entry (a per-package
source override, treated as opaque data by discovery). -/
structure UvSource where
  spec : String
deriving DecidableEq, Repr

/-- Modelled from the spec: the `[tool.uv.workspace]` table with `members`
and `exclude` glob lists. -/
structure ToolUvWorkspace where
  members : Option (List String)
  exclude : Option (List String)
deriving DecidableEq, Repr

/-- Modelled from the spec: the `[tool.uv]` table. -/
structure ToolUv where
  workspace : Option ToolUvWorkspace
  sources : Option (List (String × UvSource))
deriving DecidableEq, Repr

/-- Modelled from the spec: the `[tool]` table. -/
structure Tool where
  uv : Option ToolUv
deriving DecidableEq, Repr

/-- Modelled from the spec: a parsed `pyproject.toml` manifest, with the
fields discovery reads (an optional `[project]` table and an optional
`[tool]` table). -/
structure PyProjectToml where
  project : Option Project
  tool : Option Tool
deriving DecidableEq, Repr

/-- Payload of `toml::de::Error`. -/
inductive TomlError where
  | mk
deriving DecidableEq, Repr

/-- Payload of `glob::PatternError`. -/
inductive PatternError where
  | mk
deriving DecidableEq, Repr

/-- Payload of `glob::GlobError`. -/
inductive GlobError where
  | mk
deriving DecidableEq, Repr

/-- `DiscoverError` of workspace discovery. `pattern` and `glob` carry the
offending glob for diagnostics. -/
inductive DiscoverError where
  | missingPyprojectToml
  | pattern (glob : String) (e : PatternError)
  | glob (glob : String) (e : GlobError)
  | io (e : IoError)
  | toml (e : TomlError)
  | missingProject (path : FsPath)
deriving DecidableEq, Repr

/-- A workspace member: its root and the manifest stored for it. -/
structure WorkspaceMember where
  root : FsPath
  pyprojectToml : PyProjectToml
deriving DecidableEq, Repr

/-- The member map (`BTreeMap<PackageName, WorkspaceMember>`), modelled as an
association list with `BTreeMap::insert` semantics. -/
abbrev Members := List (String × WorkspaceMember)

/-- `BTreeMap::insert`: replace the value under an existing key, otherwise
append the binding. -/
def mapInsert {β : Type} (m : List (String × β)) (k : String) (v : β) :
    List (String × β) :=
  if m.any (fun kv => kv.1 = k) then
    m.map (fun kv => if kv.1 = k then (k, v) else kv)
  else m ++ [(k, v)]

/-- `BTreeMap::contains_key`. -/
def containsKey {β : Type} (m : List (String × β)) (k : String) : Bool :=
  m.any (fun kv => kv.1 = k)

/-- The normalized workspace view. -/
structure ProjectWorkspace where
  projectRoot : FsPath
  projectName : String
  workspaceRoot : FsPath
  workspacePackages : Members
  workspaceSources : List (String × UvSource)
deriving DecidableEq, Repr

/-- The external collaborators of workspace discovery: filesystem reads and
existence probes, the TOML parser (`toml::from_str::<PyProjectToml>`), and
glob expansion. A glob invocation is keyed by the directory the pattern was
joined to and the pattern itself. -/
structure WorkspaceFs where
  readToString : FsPath → Except IoError String
  parseToml : String → Except TomlError PyProjectToml
  pathExists : FsPath → Bool
  globFn : FsPath × String → Except PatternError (List (Except GlobError FsPath))

/-- `ProjectWorkspace::read_project`: read and parse `pyproject.toml` at the
directory, require a `project` table, and return the triple. Note that the
read error of a missing manifest propagates (`?`), so this function never
returns `none`. -/
def readProject (fs : WorkspaceFs) (path : FsPath) :
    Except DiscoverError (Option (FsPath × PyProjectToml × String)) :=
  let pyprojectPath := joinFile path "pyproject.toml"
  match fs.readToString pyprojectPath with
  | .error e => .error (.io e)
  | .ok contents =>
    match fs.parseToml contents with
    | .error e => .error (.toml e)
    | .ok pyprojectToml =>
      match pyprojectToml.project with
      | none => .error (.missingProject pyprojectPath)
      | some project => .ok (some (path, pyprojectToml, project.name))

/-- The exclude-glob result scan of `find_workspace`: a glob error aborts,
and a result equal to the current project path means "excluded". -/
def excludedIn (g : String) (path : FsPath) :
    List (Except GlobError FsPath) → Except DiscoverError Bool
  | [] => .ok false
  | .error e :: _ => .error (.glob g e)
  | .ok root :: rest => if root = path then .ok true else excludedIn g path rest

/-- The exclude loop of `find_workspace` over the workspace's exclude globs. -/
def checkExcludes (fs : WorkspaceFs) (path ancestor : FsPath) :
    List String → Except DiscoverError Bool
  | [] => .ok false
  | g :: rest =>
    match fs.globFn (ancestor, g) with
    | .error e => .error (.pattern g e)
    | .ok results =>
      match excludedIn g path results with
      | .error e => .error e
      | .ok true => .ok true
      | .ok false => checkExcludes fs path ancestor rest

/-- The ancestor walk of `ProjectWorkspace::find_workspace` over an explicit
ancestor list: skip ancestors with no manifest; at the first manifest, a
workspace declaration wins unless the project is excluded, a bare project
stops the search, and a manifest with neither is an error. -/
def findWorkspaceAux (fs : WorkspaceFs) (path : FsPath) :
    List FsPath → Except DiscoverError (Option (FsPath × ToolUvWorkspace × PyProjectToml))
  | [] => .ok none
  | ancestor :: rest =>
    let pyprojectPath := joinFile ancestor "pyproject.toml"
    if !fs.pathExists pyprojectPath then findWorkspaceAux fs path rest
    else
      match fs.readToString pyprojectPath with
      | .error e => .error (.io e)
      | .ok contents =>
        match fs.parseToml contents with
        | .error e => .error (.toml e)
        | .ok pyprojectToml =>
          match (pyprojectToml.tool.bind Tool.uv).bind ToolUv.workspace with
          | some workspace =>
            match checkExcludes fs path ancestor (workspace.exclude.getD []) with
            | .error e => .error e
            | .ok true => .ok none
            | .ok false => .ok (some (ancestor, workspace, pyprojectToml))
          | none =>
            match pyprojectToml.project with
            | some _ => .ok none
            | none => .error (.missingProject pyprojectPath)

/-- `ProjectWorkspace::find_workspace`. -/
def findWorkspace (fs : WorkspaceFs) (path : FsPath) :
    Except DiscoverError (Option (FsPath × ToolUvWorkspace × PyProjectToml)) :=
  findWorkspaceAux fs path (ancestorsOf path)

/-- The body of the member loop in `ProjectWorkspace::from_project`: read and
parse the member's own manifest, take the package name from its `project`
table, then re-read and re-parse the manifest at the *workspace root* and
store that as the member's `pyproject_toml`. -/
def loadMember (fs : WorkspaceFs) (workspaceRoot memberRoot : FsPath) :
    Except DiscoverError (String × WorkspaceMember) :=
  match fs.readToString (joinFile memberRoot "pyproject.toml") with
  | .error e => .error (.io e)
  | .ok contents =>
    match fs.parseToml contents with
    | .error e => .error (.toml e)
    | .ok pyprojectToml =>
      match pyprojectToml.project with
      | none => .error (.missingProject memberRoot)
      | some project =>
        match fs.readToString (joinFile workspaceRoot "pyproject.toml") with
        | .error e => .error (.io e)
        | .ok rootContents =>
          match fs.parseToml rootContents with
          | .error e => .error (.toml e)
          | .ok rootToml => .ok (project.name, ⟨memberRoot, rootToml⟩)

/-- The scan over one glob's results in `from_project`: a glob error aborts
with the pattern, each matched root is loaded and inserted. -/
def processRoots (fs : WorkspaceFs) (workspaceRoot : FsPath) (g : String)
    (acc : Members) :
    List (Except GlobError FsPath) → Except DiscoverError Members
  | [] => .ok acc
  | .error e :: _ => .error (.glob g e)
  | .ok memberRoot :: rest =>
    match loadMember fs workspaceRoot memberRoot with
    | .error e => .error e
    | .ok (name, member) =>
        processRoots fs workspaceRoot g (mapInsert acc name member) rest

/-- The loop over the workspace's `members` globs in `from_project`. -/
def processGlobs (fs : WorkspaceFs) (workspaceRoot : FsPath) (acc : Members) :
    List String → Except DiscoverError Members
  | [] => .ok acc
  | g :: rest =>
    match fs.globFn (workspaceRoot, g) with
    | .error e => .error (.pattern g e)
    | .ok results =>
      match processRoots fs workspaceRoot g acc results with
      | .error e => .error e
      | .ok acc' => processGlobs fs workspaceRoot acc' rest

/-- The workspace branch of `ProjectWorkspace::from_project`, after a
workspace `(root, definition, root manifest)` has been determined: when the
workspace root differs from the project, re-read the root manifest and (if
the root declares a project) insert it; then expand every `members` glob;
finally read the source overrides from the root manifest. -/
def fromProjectWithWorkspace (fs : WorkspaceFs) (projectPath : FsPath)
    (project : PyProjectToml) (projectName : String) (workspaceRoot : FsPath)
    (workspaceDefinition : ToolUvWorkspace)
    (projectInWorkspaceRoot : PyProjectToml) :
    Except DiscoverError ProjectWorkspace :=
  let members0 := mapInsert [] projectName ⟨projectPath, project⟩
  let step1 : Except DiscoverError Members :=
    if workspaceRoot ≠ projectPath then
      match fs.readToString (joinFile workspaceRoot "pyproject.toml") with
      | .error e => .error (.io e)
      | .ok contents =>
        match fs.parseToml contents with
        | .error e => .error (.toml e)
        | .ok rootToml =>
          match projectInWorkspaceRoot.project with
          | some proj =>
              .ok (mapInsert members0 proj.name ⟨workspaceRoot, rootToml⟩)
          | none => .ok members0
    else .ok members0
  match step1 with
  | .error e => .error e
  | .ok members1 =>
    match processGlobs fs workspaceRoot members1
        (workspaceDefinition.members.getD []) with
    | .error e => .error e
    | .ok members2 =>
      .ok ⟨projectPath, projectName, workspaceRoot, members2,
        ((projectInWorkspaceRoot.tool.bind Tool.uv).bind
          ToolUv.sources).getD []⟩

/-- `ProjectWorkspace::from_project`: use the project's own workspace
declaration when present, otherwise search the ancestors; the project itself
is always inserted into the member map first. -/
def fromProject (fs : WorkspaceFs) (projectPath : FsPath)
    (project : PyProjectToml) (projectName : String) :
    Except DiscoverError ProjectWorkspace :=
  let ownWorkspace :=
    ((project.tool.bind Tool.uv).bind ToolUv.workspace).map
      (fun w => (projectPath, w, project))
  let workspaceResult : Except DiscoverError
      (Option (FsPath × ToolUvWorkspace × PyProjectToml)) :=
    match ownWorkspace with
    | some w => .ok (some w)
    | none => findWorkspace fs projectPath
  match workspaceResult with
  | .error e => .error e
  | .ok (some (workspaceRoot, workspaceDefinition, projectInWorkspaceRoot)) =>
      fromProjectWithWorkspace fs projectPath project projectName
        workspaceRoot workspaceDefinition projectInWorkspaceRoot
  | .ok none =>
      .ok ⟨projectPath, projectName, projectPath,
        mapInsert [] projectName ⟨projectPath, project⟩, []⟩

/-- `ProjectWorkspace::discover`: locate the project, else report
`MissingPyprojectToml` (a branch that is in fact unreachable, see
`readProject`). -/
def discover (fs : WorkspaceFs) (path : FsPath) :
    Except DiscoverError ProjectWorkspace :=
  match readProject fs path with
  | .error e => .error e
  | .ok none => .error .missingPyprojectToml
  | .ok (some (projectPath, project, projectName)) =>
      fromProject fs projectPath project projectName

/-! ## Concrete environments used to evaluate the embedding -/

/-- A discovery environment in which every external collaborator is empty or
failing in the least interesting way: no environments, no toolchains, an
empty search path, a non-windows host, and no overriding environment
variables. -/
def emptyDiscoveryEnv : DiscoveryEnv where
  virtualenvFromEnv := none
  virtualenvFromWorkingDir := .ok none
  virtualenvPythonExecutable := fun path => path ++ "/bin/python"
  toolchainsForCurrentPlatform := .ok []
  searchPathExecutables := fun _ => []
  pyListPaths := .ok []
  isWindows := false
  tryExists := fun _ => .ok false
  whichName := fun _ => none
  query := fun _ => .error .otherQuery
  uvForceManagedPython := false
  uvTestPythonPath := false

/-- A search path with a broken interpreter (its query fails with a
query-script error) followed by a healthy CPython 3.12.1. -/
def envBrokenThenGood : DiscoveryEnv :=
  { emptyDiscoveryEnv with
    searchPathExecutables := fun _ => ["py1", "py2"]
    query := fun path =>
      if path = "py1" then .error .queryScript
      else .ok ⟨"cpython", 3, 12, 1⟩ }

/-- Selector restricted to the search path. -/
def selSearchOnly : SourceSelector :=
  SourceSelector.some [.searchPath]

/-- A search path with a single CPython 3.11.0 interpreter. -/
def envOneInterpreter : DiscoveryEnv :=
  { emptyDiscoveryEnv with
    searchPathExecutables := fun _ => ["py1"]
    query := fun _ => .ok ⟨"cpython", 3, 11, 0⟩ }

/-- An environment whose only yielding source is the search path. -/
def envSearchYields : DiscoveryEnv :=
  { emptyDiscoveryEnv with searchPathExecutables := fun _ => ["spy"] }

/-- Two managed toolchains, versions 3.12.1 and 3.11.2. -/
def envTwoToolchains : DiscoveryEnv :=
  { emptyDiscoveryEnv with
    toolchainsForCurrentPlatform :=
      .ok [⟨⟨3, 12, some 1⟩, "tc1"⟩, ⟨⟨3, 11, some 2⟩, "tc2"⟩] }

/-- A filesystem with no files at all: every read fails with not-found and no
path exists. -/
def fsEmpty : WorkspaceFs where
  readToString := fun _ => .error .notFound
  parseToml := fun _ => .error .mk
  pathExists := fun _ => false
  globFn := fun _ => .ok []

/-- A manifest with a bare `[project]` table named `pkg`. -/
def tomlBare : PyProjectToml :=
  ⟨some ⟨"pkg"⟩, none⟩

/-- The member's own manifest in the re-read scenario. -/
def tomlMember : PyProjectToml :=
  ⟨some ⟨"bird-feeder"⟩, none⟩

/-- The workspace root manifest in the re-read scenario: it declares the
workspace and its own project. -/
def tomlRoot : PyProjectToml :=
  ⟨some ⟨"albatross"⟩, some ⟨some ⟨some ⟨some ["packages/*"], none⟩, none⟩⟩⟩

/-- A filesystem holding a workspace root at `w` and one member at
`w/packages/bird-feeder`, whose glob expansion finds the member. -/
def fsWorkspaceDemo : WorkspaceFs where
  readToString := fun p =>
    if p = ["w", "packages", "bird-feeder", "pyproject.toml"] then .ok "member"
    else if p = ["w", "pyproject.toml"] then .ok "root"
    else .error .notFound
  parseToml := fun s =>
    if s = "member" then .ok tomlMember
    else if s = "root" then .ok tomlRoot
    else .error .mk
  pathExists := fun p => p = ["w", "pyproject.toml"]
  globFn := fun _ => .ok [.ok ["w", "packages", "bird-feeder"]]

/-! ## Helper lemmas -/

theorem parseU8_nil : parseU8 [] = none := rfl

theorem parseU8_cons_none (c : Char) (l : List Char) (h1 : digitVal c = none)
    (h2 : c ≠ '+') : parseU8 (c :: l) = none := by
  simp only [parseU8]
  rw [if_neg h2, h1]

set_option maxRecDepth 8192 in
theorem u8Repr_round : ∀ n < 256, parseU8 (u8Repr n) = some n ∧ '.' ∉ u8Repr n := by
  decide

theorem splitOnceChar_append (sep : Char) (a b : List Char) (h : sep ∉ a) :
    splitOnceChar sep (a ++ sep :: b) = some (a, b) := by
  induction a with
  | nil => simp [splitOnceChar]
  | cons c a ih =>
    simp only [List.mem_cons, not_or] at h
    rw [List.cons_append]
    unfold splitOnceChar
    rw [if_neg (fun hc => h.1 hc.symm), ih h.2]
    rfl

theorem splitnChar3_two_dots (A B C : List Char) (hA : '.' ∉ A) (hB : '.' ∉ B) :
    splitnChar 3 '.' (A ++ '.' :: (B ++ '.' :: C)) = [A, B, C] := by
  simp [splitnChar, splitOnceChar_append _ _ _ hA, splitOnceChar_append _ _ _ hB]

theorem fromChars_triple (A B C : List Char) (ma mi pa : Nat) (hA : '.' ∉ A)
    (hB : '.' ∉ B) (pA : parseU8 A = some ma) (pB : parseU8 B = some mi)
    (pC : parseU8 C = some pa) :
    VersionRequest.fromChars (A ++ '.' :: (B ++ '.' :: C)) =
      some (.majorMinorPatch ma mi pa) := by
  unfold VersionRequest.fromChars
  rw [splitnChar3_two_dots A B C hA hB]
  simp [parseAll, pA, pB, pC]

theorem fromChars_cons_none (c : Char) (l : List Char) (h1 : digitVal c = none)
    (h2 : c ≠ '+') : VersionRequest.fromChars (c :: l) = none := by
  by_cases hdot : c = '.'
  · subst hdot
    have hs : splitnChar 3 '.' ('.' :: l) = [] :: splitnChar 2 '.' l := by
      simp [splitnChar, splitOnceChar]
    unfold VersionRequest.fromChars
    rw [hs]
    simp [parseAll, parseU8_nil]
  · have hs : ∃ t rest, splitnChar 3 '.' (c :: l) = (c :: t) :: rest := by
      cases h : splitOnceChar '.' l with
      | none =>
        refine ⟨l, [], ?_⟩
        simp [splitnChar, splitOnceChar, hdot, h]
      | some p =>
        refine ⟨p.1, splitnChar 2 '.' p.2, ?_⟩
        simp [splitnChar, splitOnceChar, hdot, h]
    obtain ⟨t, rest, hs⟩ := hs
    unfold VersionRequest.fromChars
    rw [hs]
    simp [parseAll, parseU8_cons_none c t h1 h2]

theorem removePre_append (p s : List Char) : removePre p (p ++ s) = some s := by
  induction p with
  | nil => rfl
  | cons c p ih => simp [removePre, ih]

/-! ## C9 -/

/-- C9: for every triple `(M, m, p)` with each component at most 255,
`VersionRequest::from_str` applied to the rendering `"M.m.p"` returns
`MajorMinorPatch(M, m, p)`; the `Display` rendering of
`MajorMinorPatch(M, m, p)` is exactly that string (decimal components joined
by dots); and parsing `"1.foo.1"` fails. -/
theorem c9_version_parse_display_round_trip :
    ∀ ma mi pa : Nat, ma ≤ 255 → mi ≤ 255 → pa ≤ 255 →
      VersionRequest.fromChars
          (VersionRequest.displayChars (.majorMinorPatch ma mi pa)) =
        some (.majorMinorPatch ma mi pa) ∧
      VersionRequest.displayChars (.majorMinorPatch ma mi pa) =
        u8Repr ma ++ '.' :: (u8Repr mi ++ '.' :: u8Repr pa) ∧
      VersionRequest.fromStr "1.foo.1" = none := by
  intro ma mi pa hma hmi hpa
  have Hma := u8Repr_round ma (by omega)
  have Hmi := u8Repr_round mi (by omega)
  have Hpa := u8Repr_round pa (by omega)
  have hd : VersionRequest.displayChars (.majorMinorPatch ma mi pa) =
      u8Repr ma ++ '.' :: (u8Repr mi ++ '.' :: u8Repr pa) := by
    simp [VersionRequest.displayChars]
  refine ⟨?_, hd, by decide⟩
  rw [hd]
  exact fromChars_triple _ _ _ _ _ _ Hma.2 Hmi.2 Hma.1 Hmi.1 Hpa.1

/-- Witness for C9 at the triple (3, 12, 255). -/
theorem c9_witness :
    3 ≤ 255 ∧ 12 ≤ 255 ∧ 255 ≤ 255 ∧
      (VersionRequest.fromChars
          (VersionRequest.displayChars (.majorMinorPatch 3 12 255)) =
        some (.majorMinorPatch 3 12 255) ∧
      VersionRequest.displayChars (.majorMinorPatch 3 12 255) =
        u8Repr 3 ++ '.' :: (u8Repr 12 ++ '.' :: u8Repr 255) ∧
      VersionRequest.fromStr "1.foo.1" = none) :=
  ⟨by decide, by decide, by decide,
    c9_version_parse_display_round_trip 3 12 255 (by decide) (by decide)
      (by decide)⟩

/-! ## C2 -/

/-- C2 counterexample: with a filesystem in which `"python"` is not a
directory, `InterpreterRequest::parse("python")` yields
`ExecutableName("python")`, not `Version(Default)` as the claim states: the
empty suffix does not parse as a `VersionRequest` (parsing the empty string
as `u8` fails), so rule 2 does not fire. -/
theorem c2_counterexample :
    InterpreterRequest.parse (fun _ => false) "python" =
        .executableName "python" ∧
      InterpreterRequest.parse (fun _ => false) "python" ≠
        .version .default ∧
      VersionRequest.fromChars [] = none := by
  decide

/-- C2 amended: for every input that begins with `python` and whose suffix
parses as a `VersionRequest` — which requires the suffix to be non-empty —
`InterpreterRequest::parse` returns the `Version` variant; `parse("python")`
itself (when no directory named `python` exists) returns
`ExecutableName("python")`, because the empty suffix fails to parse. -/
theorem c2_amended :
    (∀ (isDir : String → Bool) (rest : String) (v : VersionRequest),
        VersionRequest.fromChars rest.data = some v →
        InterpreterRequest.parse isDir ("python" ++ rest) = .version v) ∧
    (∀ isDir : String → Bool, isDir "python" = false →
        InterpreterRequest.parse isDir "python" = .executableName "python") := by
  constructor
  · intro isDir rest v hv
    have hdata : ("python" ++ rest).data =
        'p' :: 'y' :: 't' :: 'h' :: 'o' :: 'n' :: rest.data := by
      rw [String.data_append]
      rfl
    have h1 : VersionRequest.fromChars
        ('p' :: 'y' :: 't' :: 'h' :: 'o' :: 'n' :: rest.data) = none :=
      fromChars_cons_none _ _ (by decide) (by decide)
    have h2 : removePre "python".data
        ('p' :: 'y' :: 't' :: 'h' :: 'o' :: 'n' :: rest.data) = some rest.data :=
      removePre_append "python".data rest.data
    have h2' : removePre ['p', 'y', 't', 'h', 'o', 'n']
        ('p' :: 'y' :: 't' :: 'h' :: 'o' :: 'n' :: rest.data) = some rest.data :=
      h2
    unfold InterpreterRequest.parse
    rw [hdata]
    simp [h1, h2, h2', hv, Option.orElse]
  · intro isDir h
    unfold InterpreterRequest.parse
    simp only [h]
    decide

/-- Witness for C2 at the suffix `"3.12"` and at the bare string `"python"`. -/
theorem c2_witness :
    VersionRequest.fromChars ("3.12" : String).data =
        some (.majorMinor 3 12) ∧
      InterpreterRequest.parse (fun _ => false) ("python" ++ "3.12") =
        .version (.majorMinor 3 12) ∧
      (fun (_ : String) => false) "python" = false ∧
      InterpreterRequest.parse (fun _ => false) "python" =
        .executableName "python" :=
  ⟨by decide,
    c2_amended.1 (fun _ => false) "3.12" (.majorMinor 3 12) (by decide),
    rfl,
    c2_amended.2 (fun _ => false) rfl⟩

/-! ## Enumeration helper lemmas -/

theorem find?_append_of_none {α : Type} (p : α → Bool) (l1 l2 : List α)
    (h : ∀ x ∈ l1, p x = false) : (l1 ++ l2).find? p = l2.find? p := by
  rw [List.find?_append, List.find?_eq_none.mpr (fun x hx => by simp [h x hx])]
  rfl

/-! ## C1 -/

/-- C1 counterexample: with a broken interpreter (query-script failure) ahead
of a matching CPython 3.12.1 on the search path, the
`ImplementationVersion(cpython, 3.12)` request does not skip the query-script
error: `find_interpreter` surfaces it, although a matching candidate follows
in the very same stream. -/
theorem c1_counterexample :
    pythonInterpreters envBrokenThenGood (some (.majorMinor 3 12))
        selSearchOnly =
      [.error (.query .queryScript),
        .ok (.searchPath, ⟨"cpython", 3, 12, 1⟩)] ∧
    (VersionRequest.majorMinor 3 12).matchesInterpreter
        ⟨"cpython", 3, 12, 1⟩ = true ∧
    (⟨"cpython", 3, 12, 1⟩ : Interpreter).implementationName =
      ImplementationName.cpython.asStr ∧
    findInterpreter envBrokenThenGood
        (.implementationVersion .cpython (.majorMinor 3 12)) selSearchOnly =
      .error (.query .queryScript) := by
  decide

/-- C1 amended: during `ImplementationVersion` enumeration *every* error
short-circuits, the query-script sub-variant included; query-script errors
are recoverable (skipped) only during `Implementation` enumeration. -/
theorem c1_amended :
    (∀ (env : DiscoveryEnv) (impl : ImplementationName) (v : VersionRequest)
        (sources : SourceSelector) (pre post : List InterpItem)
        (e : DiscoveryError),
        pythonInterpreters env (some v) sources = pre ++ .error e :: post →
        (∀ r ∈ pre, ∃ s i, r = .ok (s, i) ∧
          ¬(v.matchesInterpreter i = true ∧
            i.implementationName = impl.asStr)) →
        findInterpreter env (.implementationVersion impl v) sources =
          .error e) ∧
    (∀ (env : DiscoveryEnv) (impl : ImplementationName)
        (sources : SourceSelector) (pre post : List InterpItem)
        (s : InterpreterSource) (i : Interpreter),
        pythonInterpreters env none sources = pre ++ .ok (s, i) :: post →
        (∀ r ∈ pre, r = .error (.query .queryScript) ∨
          ∃ s' i', r = .ok (s', i') ∧ i'.implementationName ≠ impl.asStr) →
        i.implementationName = impl.asStr →
        findInterpreter env (.implementation impl) sources =
          .ok (.ok ⟨s, i⟩)) := by
  constructor
  · intro env impl v sources pre post e hstream hpre
    have hfind : (pythonInterpreters env (some v) sources).find?
        (implVersionFindPred impl v) = some (.error e) := by
      rw [hstream, find?_append_of_none _ _ _ ?_]
      · simp [List.find?, implVersionFindPred]
      · intro r hr
        obtain ⟨s, i, rfl, hni⟩ := hpre r hr
        cases hm : v.matchesInterpreter i with
        | false => simp [implVersionFindPred, hm]
        | true =>
          have hn : ¬(i.implementationName = impl.asStr) :=
            fun hn => hni ⟨hm, hn⟩
          simp [implVersionFindPred, hm, hn]
    simp only [findInterpreter, hfind]
  · intro env impl sources pre post s i hstream hpre hmatch
    have hfind : (pythonInterpreters env none sources).find?
        (implFindPred impl) = some (.ok (s, i)) := by
      rw [hstream, find?_append_of_none _ _ _ ?_]
      · simp [List.find?, implFindPred, hmatch]
      · intro r hr
        rcases hpre r hr with rfl | ⟨s', i', rfl, hn⟩
        · simp [implFindPred]
        · simp [implFindPred, hn]
    simp only [findInterpreter, hfind]

/-- Witness for C1: in the broken-then-good environment the
`ImplementationVersion` resolver surfaces the query-script error while the
`Implementation` resolver skips it and finds the good interpreter. -/
theorem c1_witness :
    findInterpreter envBrokenThenGood
        (.implementationVersion .cpython (.majorMinor 3 12)) selSearchOnly =
      .error (.query .queryScript) ∧
    findInterpreter envBrokenThenGood (.implementation .cpython)
        selSearchOnly =
      .ok (.ok ⟨.searchPath, ⟨"cpython", 3, 12, 1⟩⟩) :=
  ⟨c1_amended.1 envBrokenThenGood .cpython (.majorMinor 3 12) selSearchOnly
      [] [.ok (.searchPath, ⟨"cpython", 3, 12, 1⟩)] (.query .queryScript)
      (by decide) (by intro r hr; exact absurd hr (List.not_mem_nil r)),
    c1_amended.2 envBrokenThenGood .cpython selSearchOnly
      [.error (.query .queryScript)] [] .searchPath ⟨"cpython", 3, 12, 1⟩
      (by decide)
      (by
        intro r hr
        simp only [List.mem_singleton] at hr
        subst hr
        exact Or.inl rfl)
      rfl⟩

/-! ## C6 -/

/-- C6: when the `Version(v)` arm exhausts enumeration without a match and
without a short-circuiting error, the structured failure is
`NoPythonInstallation` (carrying the selector) when `v` is `Default` — in
which case the stream is necessarily empty, since `Default` matches every
queried interpreter — and `NoMatchingVersion` (carrying selector and `v`)
otherwise; both are returned inside the `Ok` arm of the outer result. -/
theorem c6_version_exhaustion :
    ∀ (env : DiscoveryEnv) (v : VersionRequest) (sources : SourceSelector),
      (∀ r ∈ pythonInterpreters env (some v) sources,
        ∃ s i, r = .ok (s, i) ∧ v.matchesInterpreter i = false) →
      (v = .default →
        pythonInterpreters env (some v) sources = [] ∧
        findInterpreter env (.version v) sources =
          .ok (.error (.noPythonInstallation sources (some v)))) ∧
      (v ≠ .default →
        findInterpreter env (.version v) sources =
          .ok (.error (.noMatchingVersion sources v))) := by
  intro env v sources hx
  have hfind : (pythonInterpreters env (some v) sources).find?
      (versionFindPred v) = none := by
    apply List.find?_eq_none.mpr
    intro r hr
    obtain ⟨s, i, rfl, hm⟩ := hx r hr
    simp [versionFindPred, hm]
  constructor
  · intro hdef
    subst hdef
    have hempty : pythonInterpreters env (some .default) sources = [] := by
      cases hl : pythonInterpreters env (some .default) sources with
      | nil => rfl
      | cons r rest =>
        obtain ⟨s, i, hre, hm⟩ := hx r (hl ▸ List.mem_cons_self r rest)
        simp [VersionRequest.matchesInterpreter] at hm
    refine ⟨hempty, ?_⟩
    simp only [findInterpreter, hfind]
    simp
  · intro hne
    simp only [findInterpreter, hfind]
    simp [hne]

/-- Witness for C6: one non-matching CPython 3.11.0 on the search path and a
`3.12` request produce `NoMatchingVersion` inside the `Ok` arm. -/
theorem c6_witness :
    findInterpreter envOneInterpreter (.version (.majorMinor 3 12)) .all =
      .ok (.error (.noMatchingVersion .all (.majorMinor 3 12))) :=
  (c6_version_exhaustion envOneInterpreter (.majorMinor 3 12) .all
    (by
      intro r hr
      have hs : pythonInterpreters envOneInterpreter
          (some (.majorMinor 3 12)) .all =
          [.ok (.searchPath, ⟨"cpython", 3, 11, 0⟩)] := by decide
      rw [hs] at hr
      simp only [List.mem_singleton] at hr
      subst hr
      exact ⟨.searchPath, ⟨"cpython", 3, 11, 0⟩, rfl, by decide⟩)).2
    (by decide)

/-! ## C4 -/

/-- C4 counterexample: `ImplementationVersion(cpython, 3.12)` carries no patch
component, yet `find_best_interpreter` still performs the second pass — it
retries the (unchanged, since `without_patch()` is the identity here) request
before falling back to `Version(Default)`. The attempted-request trace is
`[request, request, Version(Default)]`, not the `[request, Version(Default)]`
the claim predicts. -/
theorem c4_counterexample :
    (VersionRequest.majorMinor 3 12).hasPatch = false ∧
    (findBestInterpreter emptyDiscoveryEnv
        (.implementationVersion .cpython (.majorMinor 3 12)) .allowed).2 =
      [.implementationVersion .cpython (.majorMinor 3 12),
        .implementationVersion .cpython (.majorMinor 3 12),
        .version .default] := by
  decide

/-- C4 amended: the patch-relaxed second pass is gated by `secondPassRequest`:
`Version` requests get a second pass exactly when they carry a patch, while
`ImplementationVersion` requests always get one (with `without_patch()`,
which is the identity when no patch is present); all other requests have
none. When the first pass fails with a structured not-found, the second
request attempted is `secondPassRequest request`, falling through to
`Version(Default)` when there is none. -/
theorem c4_amended :
    (∀ (i : ImplementationName) (v : VersionRequest),
        secondPassRequest (.implementationVersion i v) =
          some (.implementationVersion i v.withoutPatch)) ∧
    (∀ v : VersionRequest, v.hasPatch = false →
        secondPassRequest (.version v) = none) ∧
    (∀ v : VersionRequest, v.hasPatch = true →
        secondPassRequest (.version v) = some (.version v.withoutPatch)) ∧
    (∀ p : String, secondPassRequest (.file p) = none ∧
        secondPassRequest (.directory p) = none ∧
        secondPassRequest (.executableName p) = none) ∧
    (∀ i : ImplementationName, secondPassRequest (.implementation i) = none) ∧
    (∀ (env : DiscoveryEnv) (system : SystemPython)
        (request : InterpreterRequest) (nf : InterpreterNotFound),
        findInterpreter env request (SourceSelector.fromEnv env system) =
          .ok (.error nf) →
        (findBestInterpreter env request system).2.head? = some request ∧
        (findBestInterpreter env request system).2[1]? =
          some ((secondPassRequest request).getD (.version .default))) := by
  refine ⟨fun i v => rfl, fun v hv => by simp [secondPassRequest, hv],
    fun v hv => by simp [secondPassRequest, hv],
    fun p => ⟨rfl, rfl, rfl⟩, fun i => rfl, ?_⟩
  intro env system request nf h
  simp only [findBestInterpreter, h]
  cases hsp : secondPassRequest request with
  | none => simp
  | some request2 =>
    cases hf2 : findInterpreter env request2 (SourceSelector.fromEnv env system) with
    | error e => simp [hf2]
    | ok inner =>
      cases inner with
      | error nf2 => simp [hf2]
      | ok found => simp [hf2]

/-- Witness for C4: a `Version(3.12.1)` request (which does carry a patch)
failing its first pass attempts `Version(3.12)` second. -/
theorem c4_witness :
    ((findBestInterpreter emptyDiscoveryEnv
        (.version (.majorMinorPatch 3 12 1)) .allowed).2.head? =
      some (.version (.majorMinorPatch 3 12 1)) ∧
    (findBestInterpreter emptyDiscoveryEnv
        (.version (.majorMinorPatch 3 12 1)) .allowed).2[1]? =
      some ((secondPassRequest (.version (.majorMinorPatch 3 12 1))).getD
        (.version .default))) ∧
    (secondPassRequest (.version (.majorMinorPatch 3 12 1))).getD
        (.version .default) = .version (.majorMinor 3 12) :=
  ⟨c4_amended.2.2.2.2.2 emptyDiscoveryEnv .allowed
      (.version (.majorMinorPatch 3 12 1))
      (.noMatchingVersion .all (.majorMinorPatch 3 12 1)) (by decide),
    by decide⟩

/-! ## Stream decomposition helpers -/

theorem flatten_head_of_find? {α β : Type} (f : α → List β) :
    ∀ (l : List α) (a : α),
      l.find? (fun t => !(f t).isEmpty) = some a →
      ((l.map f).flatten).head? = (f a).head? := by
  intro l
  induction l with
  | nil => intro a h; simp at h
  | cons x l ih =>
    intro a h
    by_cases hx : (f x).isEmpty
    · rw [List.find?_cons_of_neg _ (by simp [hx])] at h
      have hnil : f x = [] := by
        cases hfx : f x with
        | nil => rfl
        | cons y ys => rw [hfx] at hx; simp at hx
      simp [hnil, ih a h]
    · rw [List.find?_cons_of_pos _ (by simp [hx])] at h
      injection h with h
      subst h
      cases hfx : f x with
      | nil => rw [hfx] at hx; simp at hx
      | cons y ys => simp [hfx]

theorem pythonExecutables_decomp (env : DiscoveryEnv)
    (version : Option VersionRequest) (sources : SourceSelector) :
    pythonExecutables env version sources =
      (sourceOrder.map (fun s =>
        if sources.contains s then sourceContribution env version s
        else [])).flatten := by
  cases hc : sources.contains .pyLauncher <;> cases hw : env.isWindows <;>
    simp [pythonExecutables, sourceContribution, sourceOrder, hc, hw,
      List.append_assoc]

theorem sourceContribution_ok_tag (env : DiscoveryEnv)
    (version : Option VersionRequest) (s : InterpreterSource)
    (src : InterpreterSource) (path : String) :
    (Except.ok (src, path) : ExecItem) ∈ sourceContribution env version s →
    src = s := by
  intro h
  cases s
  case providedPath => simp [sourceContribution] at h
  case activeEnvironment =>
    simp only [sourceContribution, List.mem_map] at h
    obtain ⟨a, _, ha⟩ := h
    simp only [Except.ok.injEq, Prod.mk.injEq] at ha
    exact ha.1.symm
  case discoveredEnvironment =>
    simp only [sourceContribution] at h
    split at h
    · simp at h
    · simp at h
    · simp only [List.mem_singleton, Except.ok.injEq, Prod.mk.injEq] at h
      exact h.1
  case managedToolchain =>
    simp only [sourceContribution] at h
    split at h
    · simp at h
    · simp only [List.mem_map, List.mem_filter] at h
      obtain ⟨tc, _, htc⟩ := h
      simp only [Except.ok.injEq, Prod.mk.injEq] at htc
      exact htc.1.symm
  case searchPath =>
    simp only [sourceContribution, List.mem_map] at h
    obtain ⟨a, _, ha⟩ := h
    simp only [Except.ok.injEq, Prod.mk.injEq] at ha
    exact ha.1.symm
  case pyLauncher =>
    simp only [sourceContribution] at h
    split at h
    · split at h
      · simp at h
      · simp only [List.mem_map, List.mem_filter] at h
        obtain ⟨entry, _, he⟩ := h
        simp only [Except.ok.injEq, Prod.mk.injEq] at he
        exact he.1.symm
    · simp at h

/-! ## C5 -/

/-- C5: `python_executables` is the concatenation, in the fixed order
ActiveEnvironment, DiscoveredEnvironment, ManagedToolchain, SearchPath,
PyLauncher, of each source's contribution, with an unselected source
contributing the empty segment; every candidate of a segment is tagged with
that segment's source; and under the `All` selector the first element of the
stream is the first element of the earliest non-empty contribution. -/
theorem c5_source_order :
    ∀ (env : DiscoveryEnv) (version : Option VersionRequest)
      (sources : SourceSelector),
      pythonExecutables env version sources =
        (sourceOrder.map (fun s =>
          if sources.contains s then sourceContribution env version s
          else [])).flatten ∧
      (∀ s src path, (Except.ok (src, path) : ExecItem) ∈
        sourceContribution env version s → src = s) ∧
      (∀ s, sourceOrder.find?
          (fun t => !(sourceContribution env version t).isEmpty) = some s →
        (pythonExecutables env version .all).head? =
          (sourceContribution env version s).head?) := by
  intro env version sources
  refine ⟨pythonExecutables_decomp env version sources,
    fun s src path h => sourceContribution_ok_tag env version s src path h,
    ?_⟩
  intro s hfs
  rw [pythonExecutables_decomp env version .all]
  have hall : (fun t =>
      if SourceSelector.contains .all t then sourceContribution env version t
      else []) = fun t => sourceContribution env version t := by
    funext t
    simp [SourceSelector.contains]
  rw [hall]
  exact flatten_head_of_find? _ sourceOrder s hfs

/-- Witness for C5: with only the search path yielding (`spy`), the head of
the `All` stream is the search-path candidate. -/
theorem c5_witness :
    sourceOrder.find?
        (fun t => !(sourceContribution envSearchYields none t).isEmpty) =
      some .searchPath ∧
    (pythonExecutables envSearchYields none .all).head? =
      some (.ok (.searchPath, "spy")) := by
  constructor
  · decide
  · rw [(c5_source_order envSearchYields none .all).2.2 .searchPath (by decide)]
    decide

/-! ## C8 -/

/-- C8: a `ManagedToolchain` candidate appears in the stream for a known
version request `v'` only if some installed toolchain declares that
executable and its declared version satisfies `v'` — the prefilter applies
`matches_version` before any candidate is emitted for querying. -/
theorem c8_managed_toolchain_prefilter :
    ∀ (env : DiscoveryEnv) (vreq : VersionRequest) (sources : SourceSelector)
      (path : String),
      (Except.ok (InterpreterSource.managedToolchain, path) : ExecItem) ∈
        pythonExecutables env (some vreq) sources →
      ∃ toolchains toolchain,
        env.toolchainsForCurrentPlatform = .ok toolchains ∧
        toolchain ∈ toolchains ∧ toolchain.executable = path ∧
        vreq.matchesVersion toolchain.pythonVersion = true := by
  intro env vreq sources path hmem
  rw [pythonExecutables_decomp env (some vreq) sources] at hmem
  rw [List.mem_flatten] at hmem
  obtain ⟨l, hl, hx⟩ := hmem
  rw [List.mem_map] at hl
  obtain ⟨s, _, rfl⟩ := hl
  by_cases hsel : sources.contains s = true
  · rw [if_pos hsel] at hx
    have hs := sourceContribution_ok_tag env (some vreq) s .managedToolchain
      path hx
    subst hs
    simp only [sourceContribution] at hx
    split at hx
    · simp at hx
    · next toolchains heq =>
      simp only [List.mem_map, List.mem_filter] at hx
      obtain ⟨tc, ⟨htc, hfilter⟩, hokeq⟩ := hx
      simp only [Except.ok.injEq, Prod.mk.injEq] at hokeq
      refine ⟨toolchains, tc, heq, htc, hokeq.2, ?_⟩
      simpa using hfilter
  · rw [if_neg hsel] at hx
    simp at hx

/-- Witness for C8: toolchain `tc1` (3.12.1) passes the `3.12` prefilter and
appears; the conclusion names it. -/
theorem c8_witness :
    ((Except.ok (InterpreterSource.managedToolchain, "tc1") : ExecItem) ∈
      pythonExecutables envTwoToolchains (some (.majorMinor 3 12)) .all) ∧
    (∃ toolchains toolchain,
      envTwoToolchains.toolchainsForCurrentPlatform = .ok toolchains ∧
      toolchain ∈ toolchains ∧ toolchain.executable = "tc1" ∧
      (VersionRequest.majorMinor 3 12).matchesVersion
        toolchain.pythonVersion = true) :=
  ⟨by decide,
    c8_managed_toolchain_prefilter envTwoToolchains (.majorMinor 3 12) .all
      "tc1" (by decide)⟩

/-! ## C3 -/

/-- C3 (code-bug evidence): starting `discover` at a directory whose
`pyproject.toml` is absent returns the propagated I/O error from
`read_to_string`, not `MissingPyprojectToml`: `read_project` propagates the
read failure with `?`, so the `MissingPyprojectToml` branch of `discover`
(reached only when `read_project` returns `None`) is unreachable. -/
theorem c3_missing_manifest_io_error :
    discover fsEmpty ["home", "proj"] = .error (.io .notFound) ∧
    discover fsEmpty ["home", "proj"] ≠ .error .missingPyprojectToml := by
  decide

/-! ## Member-map helper lemmas -/

theorem containsKey_mapInsert_self {β : Type} (m : List (String × β))
    (k : String) (v : β) : containsKey (mapInsert m k v) k = true := by
  unfold mapInsert containsKey
  split
  · next hany =>
    rw [List.any_eq_true] at hany ⊢
    obtain ⟨kv, hm, hk⟩ := hany
    exact ⟨(k, v), List.mem_map.mpr ⟨kv, hm, by simp_all⟩, by simp⟩
  · rw [List.any_eq_true]
    exact ⟨(k, v), List.mem_append_right _ (List.mem_singleton.mpr rfl),
      by simp⟩

theorem containsKey_mapInsert_mono {β : Type} (m : List (String × β))
    (k k' : String) (v : β) (h : containsKey m k = true) :
    containsKey (mapInsert m k' v) k = true := by
  unfold mapInsert
  unfold containsKey at h ⊢
  split
  · rw [List.any_eq_true] at h ⊢
    obtain ⟨kv, hm, hk⟩ := h
    by_cases hkk : kv.1 = k'
    · refine ⟨(k', v), List.mem_map.mpr ⟨kv, hm, by simp [hkk]⟩, ?_⟩
      simp only [decide_eq_true_eq] at hk ⊢
      rw [← hkk]
      exact hk
    · exact ⟨kv, List.mem_map.mpr ⟨kv, hm, by simp [hkk]⟩, hk⟩
  · rw [List.any_append, h]
    rfl

theorem processRoots_containsKey (fs : WorkspaceFs) (wr : FsPath) (g : String) :
    ∀ (roots : List (Except GlobError FsPath)) (acc m2 : Members) (k : String),
      processRoots fs wr g acc roots = .ok m2 →
      containsKey acc k = true → containsKey m2 k = true := by
  intro roots
  induction roots with
  | nil =>
    intro acc m2 k h hk
    simp only [processRoots] at h
    injection h with h
    exact h ▸ hk
  | cons r rest ih =>
    intro acc m2 k h hk
    cases r with
    | error e => simp [processRoots] at h
    | ok memberRoot =>
      simp only [processRoots] at h
      split at h
      · simp at h
      · next name member hload =>
        exact ih _ m2 k h (containsKey_mapInsert_mono acc k name member hk)

theorem processGlobs_containsKey (fs : WorkspaceFs) (wr : FsPath) :
    ∀ (globs : List String) (acc m2 : Members) (k : String),
      processGlobs fs wr acc globs = .ok m2 →
      containsKey acc k = true → containsKey m2 k = true := by
  intro globs
  induction globs with
  | nil =>
    intro acc m2 k h hk
    simp only [processGlobs] at h
    injection h with h
    exact h ▸ hk
  | cons g rest ih =>
    intro acc m2 k h hk
    simp only [processGlobs] at h
    split at h
    · simp at h
    · split at h
      · simp at h
      · next acc' hroots =>
        exact ih acc' m2 k h
          (processRoots_containsKey fs wr g _ acc acc' k hroots hk)

theorem findWorkspaceAux_mem (fs : WorkspaceFs) (path : FsPath) :
    ∀ (l : List FsPath) (r : FsPath) (w : ToolUvWorkspace) (t : PyProjectToml),
      findWorkspaceAux fs path l = .ok (some (r, w, t)) → r ∈ l := by
  intro l
  induction l with
  | nil => intro r w t h; simp [findWorkspaceAux] at h
  | cons a rest ih =>
    intro r w t h
    simp only [findWorkspaceAux] at h
    split at h
    · exact List.mem_cons_of_mem a (ih r w t h)
    · split at h
      · simp at h
      · split at h
        · simp at h
        · split at h
          · split at h
            · simp at h
            · simp at h
            · simp only [Except.ok.injEq, Option.some.injEq,
                Prod.mk.injEq] at h
              exact h.1 ▸ List.mem_cons_self a rest
          · split at h
            · simp at h
            · simp at h

theorem mem_ancestorsOf (p x : FsPath) (h : x ∈ ancestorsOf p) :
    ∃ k, x = p.take k := by
  simp only [ancestorsOf, List.mem_map, List.mem_range] at h
  obtain ⟨k, _, rfl⟩ := h
  exact ⟨p.length - k, rfl⟩

theorem fromProjectWithWorkspace_ok (fs : WorkspaceFs) (pp : FsPath)
    (project : PyProjectToml) (name : String) (wr : FsPath)
    (wd : ToolUvWorkspace) (piwr : PyProjectToml) (pw : ProjectWorkspace)
    (h : fromProjectWithWorkspace fs pp project name wr wd piwr = .ok pw) :
    containsKey pw.workspacePackages name = true ∧
    pw.projectRoot = pp ∧ pw.workspaceRoot = wr := by
  simp only [fromProjectWithWorkspace] at h
  split at h
  · simp at h
  · next members1 hstep =>
    split at h
    · simp at h
    · next members2 hglobs =>
      simp only [Except.ok.injEq] at h
      subst h
      refine ⟨?_, rfl, rfl⟩
      have h0 : containsKey (mapInsert [] name
          (⟨pp, project⟩ : WorkspaceMember)) name = true :=
        containsKey_mapInsert_self [] name _
      have h1 : containsKey members1 name = true := by
        split at hstep
        · split at hstep
          · simp at hstep
          · split at hstep
            · simp at hstep
            · split at hstep
              · next proj hproject =>
                simp only [Except.ok.injEq] at hstep
                exact hstep ▸ containsKey_mapInsert_mono _ name proj.name _ h0
              · simp only [Except.ok.injEq] at hstep
                exact hstep ▸ h0
        · simp only [Except.ok.injEq] at hstep
          exact hstep ▸ h0
      exact processGlobs_containsKey fs wr _ members1 members2 name hglobs h1

/-! ## C7 -/

/-- C7: every `ProjectWorkspace` built by `from_project` keeps the project's
own package name as a key of the member map, and its workspace root is the
project root or an ancestor of it (a prefix of the component list, i.e. some
`take`). -/
theorem c7_workspace_invariants :
    ∀ (fs : WorkspaceFs) (projectPath : FsPath) (project : PyProjectToml)
      (projectName : String) (pw : ProjectWorkspace),
      fromProject fs projectPath project projectName = .ok pw →
      containsKey pw.workspacePackages projectName = true ∧
      pw.projectRoot = projectPath ∧
      ∃ k, pw.workspaceRoot = pw.projectRoot.take k := by
  intro fs projectPath project projectName pw h
  simp only [fromProject] at h
  rcases hO : (project.tool.bind Tool.uv).bind ToolUv.workspace with _ | w
  · rw [hO] at h
    simp only [Option.map_none'] at h
    split at h
    · simp at h
    · next wr wd piwr hfw =>
      obtain ⟨h1, h2, h3⟩ := fromProjectWithWorkspace_ok fs projectPath
        project projectName wr wd piwr pw h
      refine ⟨h1, h2, ?_⟩
      have hmem : wr ∈ ancestorsOf projectPath :=
        findWorkspaceAux_mem fs projectPath (ancestorsOf projectPath)
          wr wd piwr hfw
      obtain ⟨k, hk⟩ := mem_ancestorsOf projectPath wr hmem
      exact ⟨k, by rw [h3, h2, hk]⟩
    · next hfw =>
      simp only [Except.ok.injEq] at h
      subst h
      exact ⟨containsKey_mapInsert_self [] projectName _, rfl,
        projectPath.length, by simp⟩
  · rw [hO] at h
    simp only [Option.map_some'] at h
    obtain ⟨h1, h2, h3⟩ := fromProjectWithWorkspace_ok fs projectPath
      project projectName projectPath w project pw h
    exact ⟨h1, h2, projectPath.length, by rw [h3, h2]; simp⟩

/-- Witness for C7: a bare project with no workspace anywhere resolves to a
singleton workspace rooted at itself. -/
theorem c7_witness :
    fromProject fsEmpty ["r"] tomlBare "pkg" =
      .ok ⟨["r"], "pkg", ["r"], [("pkg", ⟨["r"], tomlBare⟩)], []⟩ ∧
    containsKey
        ((⟨["r"], "pkg", ["r"], [("pkg", ⟨["r"], tomlBare⟩)],
          []⟩ : ProjectWorkspace)).workspacePackages "pkg" = true ∧
    ∃ k, (["r"] : FsPath) = (["r"] : FsPath).take k :=
  ⟨by decide,
    (c7_workspace_invariants fsEmpty ["r"] tomlBare "pkg"
      ⟨["r"], "pkg", ["r"], [("pkg", ⟨["r"], tomlBare⟩)], []⟩ (by decide)).1,
    (c7_workspace_invariants fsEmpty ["r"] tomlBare "pkg"
      ⟨["r"], "pkg", ["r"], [("pkg", ⟨["r"], tomlBare⟩)], []⟩ (by decide)).2.2⟩

/-! ## C10 -/

/-- C10: a workspace member discovered through a `members` glob is inserted
under the package name taken from the member's own manifest, but the
`WorkspaceMember` stored for it carries the manifest re-read and re-parsed
from the *workspace root's* `pyproject.toml`, not the member's own manifest. -/
theorem c10_member_stores_root_manifest :
    ∀ (fs : WorkspaceFs) (workspaceRoot memberRoot : FsPath)
      (mc rc : String) (memberToml rootToml : PyProjectToml) (proj : Project),
      fs.readToString (joinFile memberRoot "pyproject.toml") = .ok mc →
      fs.parseToml mc = .ok memberToml →
      memberToml.project = some proj →
      fs.readToString (joinFile workspaceRoot "pyproject.toml") = .ok rc →
      fs.parseToml rc = .ok rootToml →
      loadMember fs workspaceRoot memberRoot =
        .ok (proj.name, ⟨memberRoot, rootToml⟩) ∧
      (memberToml ≠ rootToml →
        (⟨memberRoot, rootToml⟩ : WorkspaceMember).pyprojectToml ≠
          memberToml) ∧
      (∀ (g : String) (acc : Members),
        fs.globFn (workspaceRoot, g) = .ok [.ok memberRoot] →
        processGlobs fs workspaceRoot acc [g] =
          .ok (mapInsert acc proj.name ⟨memberRoot, rootToml⟩)) := by
  intro fs workspaceRoot memberRoot mc rc memberToml rootToml proj
    hmr hmp hproj hrr hrp
  have hload : loadMember fs workspaceRoot memberRoot =
      .ok (proj.name, ⟨memberRoot, rootToml⟩) := by
    simp only [loadMember, hmr, hmp, hproj, hrr, hrp]
  refine ⟨hload, fun hne he => hne he.symm, ?_⟩
  intro g acc hglob
  simp only [processGlobs, processRoots, hglob, hload]

/-- Witness for C10 in the demo workspace: `bird-feeder`'s entry stores the
root manifest (which differs from the member's own manifest). -/
theorem c10_witness :
    loadMember fsWorkspaceDemo ["w"] ["w", "packages", "bird-feeder"] =
      .ok ("bird-feeder", ⟨["w", "packages", "bird-feeder"], tomlRoot⟩) ∧
    tomlMember ≠ tomlRoot ∧
    processGlobs fsWorkspaceDemo ["w"] [] ["packages/*"] =
      .ok (mapInsert [] "bird-feeder"
        ⟨["w", "packages", "bird-feeder"], tomlRoot⟩) :=
  have H := c10_member_stores_root_manifest fsWorkspaceDemo ["w"]
    ["w", "packages", "bird-feeder"] "member" "root" tomlMember tomlRoot
    ⟨"bird-feeder"⟩ (by decide) (by decide) (by decide) (by decide)
    (by decide)
  ⟨H.1, by decide, H.2.2 "packages/*" [] (by decide)⟩

end Uv
